import Mathlib

set_option maxRecDepth 8000

/- Shallow embedding of src/app.py (Kyvex universal gateway), focused on the
stream aggregation core: clean_token, the line classification and aggregation
loop of process_kyvex_request, and the image-generation variant
process_imagen_specific.  Strings are modelled as lists of characters;
json.loads is modelled by a JSON parser over a value type whose numbers are
integers (the streams exercised by the claims carry no floats). -/

abbrev Chars := List Char

def chars (s : String) : Chars := s.data

def lbrace : Char := Char.ofNat 123

def rbrace : Char := Char.ofNat 125

/-- Python str.strip() whitespace predicate. -/
def pyIsSpace (c : Char) : Bool :=
  c = ' ' || c = '\t' || c = '\n' || c = '\r' || c = '\x0b' || c = '\x0c'

/-- Python str.strip(): drop whitespace from both ends. -/
def pyStrip (s : Chars) : Chars :=
  ((s.dropWhile pyIsSpace).reverse.dropWhile pyIsSpace).reverse

/-- Python str.lower() (ASCII, as exercised by the model map keys). -/
def lowerStr (s : Chars) : Chars := s.map Char.toLower

/-- Python substring membership test: pat in s. -/
def containsSub (pat : Chars) : Chars → Bool
  | [] => pat.isEmpty
  | c :: t => pat.isPrefixOf (c :: t) || containsSub pat t

/-- Fuelled worker for Python str.replace (all occurrences, left to right). -/
def replaceAllF (pat rep : Chars) : Nat → Chars → Chars
  | 0, s => s
  | _ + 1, [] => []
  | fuel + 1, c :: t =>
    if pat.isPrefixOf (c :: t) then
      rep ++ replaceAllF pat rep fuel ((c :: t).drop pat.length)
    else
      c :: replaceAllF pat rep fuel t

/-- Python str.replace(pat, rep): replaces every occurrence, scanning left to
right.  The fuel (one unit per character) is always sufficient since every
step consumes at least one character of the remaining input. -/
def replaceAll (pat rep s : Chars) : Chars := replaceAllF pat rep s.length s

/-- First half of clean_token's regex sub: a quote anchored at string start is
removed if present. -/
def stripLeadQuote (s : Chars) : Chars :=
  match s with
  | c :: r => if c = '"' then r else c :: r
  | [] => []

/-- Second half of clean_token's regex sub: the end anchor of the pattern
matches at the end of the string and also immediately before a newline that
ends the string, so a quote that is the last character, or a quote standing
right before a final newline, is removed. -/
def stripTrailQuote (s : Chars) : Chars :=
  match s.getLast? with
  | some c =>
    if c = '"' then s.dropLast
    else if c = '\n' then
      match s.dropLast.getLast? with
      | some c2 => if c2 = '"' then s.dropLast.dropLast ++ ['\n'] else s
      | none => s
    else s
  | none => s

/-- Embedding of re.sub applied in clean_token: the alternation matches a
leading quote (start anchor) or a trailing quote (end anchor, which also
matches before a final newline), and each is removed independently of the
other; the scan resumes after the leading match, so the same character never
serves both roles. -/
def quoteSub (s : Chars) : Chars := stripTrailQuote (stripLeadQuote s)

/-- clean_token from src/app.py lines 57-63: unescape literal newline and tab
sequences, remove a leading and a trailing quote, unescape literal escaped
quotes; empty (falsy) input yields empty output. -/
def clean_token (text : Chars) : Chars :=
  if text = [] then []
  else
    replaceAll (chars "\\\"") (chars "\"")
      (quoteSub (replaceAll (chars "\\t") (chars "\t")
        (replaceAll (chars "\\n") (chars "\n") text)))

/- ===================== JSON values and json.loads ===================== -/

inductive JVal where
  | jnull
  | jbool (b : Bool)
  | jnum (n : Int)
  | jstr (s : Chars)
  | jarr (xs : List JVal)
  | jobj (fields : List (Chars × JVal))

/-- Python dict lookup over the parsed member list; a later duplicate key
shadows an earlier one, as in json.loads. -/
def jGet (fs : List (Chars × JVal)) (k : Chars) : Option JVal :=
  match fs with
  | [] => none
  | (k2, v) :: rest =>
    match jGet rest k with
    | some v2 => some v2
    | none => if k2 = k then some v else none

/-- Python truthiness of a decoded JSON value. -/
def pyTruthy (v : JVal) : Bool :=
  match v with
  | .jnull => false
  | .jbool b => b
  | .jnum n => n != 0
  | .jstr s => !s.isEmpty
  | .jarr xs => !xs.isEmpty
  | .jobj fs => !fs.isEmpty

/-- Python equality between a decoded value and a string literal. -/
def jvalIsStr (v : JVal) (s : Chars) : Bool :=
  match v with
  | .jstr s2 => s2 == s
  | _ => false

/-- Python x or y where x is an optional decoded value: yields x when truthy,
else the default. -/
def pyOr (o : Option JVal) (d : JVal) : JVal :=
  match o with
  | some v => if pyTruthy v then v else d
  | none => d

/-- Python d.get(k) is not None: key present with a non-null value. -/
def jGetNonNull (fs : List (Chars × JVal)) (k : Chars) : Option JVal :=
  match jGet fs k with
  | some .jnull => none
  | some v => some v
  | none => none

def jsonWs (c : Char) : Bool := c = ' ' || c = '\t' || c = '\n' || c = '\r'

def skipWs (s : Chars) : Chars := s.dropWhile jsonWs

def escChar (c : Char) : Option Char :=
  if c = '"' then some '"'
  else if c = '\\' then some '\\'
  else if c = '/' then some '/'
  else if c = 'n' then some '\n'
  else if c = 't' then some '\t'
  else if c = 'r' then some '\r'
  else none

/-- JSON string body (after the opening quote). -/
def parseStrBody : Chars → Option (Chars × Chars)
  | [] => none
  | c :: rest =>
    if c = '"' then some ([], rest)
    else if c = '\\' then
      match rest with
      | [] => none
      | e :: rest2 =>
        match escChar e with
        | some ch =>
          match parseStrBody rest2 with
          | some (s, r) => some (ch :: s, r)
          | none => none
        | none => none
    else
      match parseStrBody rest with
      | some (s, r) => some (c :: s, r)
      | none => none

def digitsToNat (ds : Chars) : Nat :=
  ds.foldl (fun a c => a * 10 + (c.toNat - 48)) 0

/-- JSON integer literal; a fractional part or exponent makes the model's
decode fail (the modelled streams carry integral numbers only). -/
def parseNum (s : Chars) : Option (Int × Chars) :=
  let p := match s with
    | '-' :: r => (true, r)
    | _ => (false, s)
  let ds := p.2.takeWhile Char.isDigit
  let rest := p.2.dropWhile Char.isDigit
  if ds = [] then none
  else if 1 < ds.length && ds.headD ' ' = '0' then none
  else
    let n : Int := if p.1 then -(digitsToNat ds : Int) else (digitsToNat ds : Int)
    match rest with
    | c :: _ => if c = '.' || c = 'e' || c = 'E' then none else some (n, rest)
    | [] => some (n, rest)

inductive PMode where
  | value
  | members
  | items

inductive POut where
  | pv (v : JVal)
  | pmembers (ms : List (Chars × JVal))
  | pitems (vs : List JVal)

/-- Recursive-descent JSON parser (fuelled; structural on the fuel so that the
kernel can evaluate it on concrete lines). -/
def parseCore : Nat → PMode → Chars → Option (POut × Chars)
  | 0, _, _ => none
  | fuel + 1, PMode.value, s0 =>
    match skipWs s0 with
    | [] => none
    | c :: rest =>
      if c = '"' then
        match parseStrBody rest with
        | some (str, r) => some (.pv (.jstr str), r)
        | none => none
      else if c = lbrace then
        match skipWs rest with
        | c2 :: r2 =>
          if c2 = rbrace then some (.pv (.jobj []), r2)
          else
            match parseCore fuel PMode.members (skipWs rest) with
            | some (.pmembers ms, r) => some (.pv (.jobj ms), r)
            | _ => none
        | [] => none
      else if c = '[' then
        match skipWs rest with
        | c2 :: r2 =>
          if c2 = ']' then some (.pv (.jarr []), r2)
          else
            match parseCore fuel PMode.items (skipWs rest) with
            | some (.pitems vs, r) => some (.pv (.jarr vs), r)
            | _ => none
        | [] => none
      else if c = 't' then
        if (chars "rue").isPrefixOf rest then some (.pv (.jbool true), rest.drop 3) else none
      else if c = 'f' then
        if (chars "alse").isPrefixOf rest then some (.pv (.jbool false), rest.drop 4) else none
      else if c = 'n' then
        if (chars "ull").isPrefixOf rest then some (.pv .jnull, rest.drop 3) else none
      else
        match parseNum (c :: rest) with
        | some (n, r) => some (.pv (.jnum n), r)
        | none => none
  | fuel + 1, PMode.members, s0 =>
    match skipWs s0 with
    | c :: rest =>
      if c = '"' then
        match parseStrBody rest with
        | some (key, r1) =>
          match skipWs r1 with
          | ':' :: r3 =>
            match parseCore fuel PMode.value r3 with
            | some (.pv v, r4) =>
              match skipWs r4 with
              | ',' :: r6 =>
                match parseCore fuel PMode.members r6 with
                | some (.pmembers ms, r7) => some (.pmembers ((key, v) :: ms), r7)
                | _ => none
              | c5 :: r6 => if c5 = rbrace then some (.pmembers [(key, v)], r6) else none
              | [] => none
            | _ => none
          | _ => none
        | none => none
      else none
    | [] => none
  | fuel + 1, PMode.items, s0 =>
    match parseCore fuel PMode.value s0 with
    | some (.pv v, r) =>
      match skipWs r with
      | ',' :: r2 =>
        match parseCore fuel PMode.items r2 with
        | some (.pitems vs, r3) => some (.pitems (v :: vs), r3)
        | _ => none
      | ']' :: r2 => some (.pitems [v], r2)
      | _ => none
    | _ => none

/-- Model of json.loads: parse one value, require only whitespace after it. -/
def json_loads (s : Chars) : Option JVal :=
  match parseCore (2 * s.length + 4) PMode.value s with
  | some (.pv v, r) => if skipWs r = [] then some v else none
  | _ => none

/- ===================== media extraction (regex fallbacks) ===================== -/

def b64Char (c : Char) : Bool := c.isAlphanum || c = '+' || c = '/' || c = '='

/-- re.search of the base64 payload pattern: leftmost position where the
marker is followed by a nonempty greedy run of base64 alphabet characters;
yields the captured run. -/
def searchB64 : Chars → Option Chars
  | [] => none
  | c :: rest =>
    if (chars "base64,").isPrefixOf (c :: rest) then
      let run := ((c :: rest).drop 7).takeWhile b64Char
      if run = [] then searchB64 rest else some run
    else searchB64 rest

def urlStopChar (c : Char) : Bool :=
  pyIsSpace c || c = '\'' || c = '"' || c = ')'

/-- re.search of the https URL pattern: leftmost https marker followed by a
nonempty greedy run of characters other than whitespace, quotes and a closing
paren; yields the whole matched URL. -/
def searchUrl : Chars → Option Chars
  | [] => none
  | c :: rest =>
    if (chars "https://").isPrefixOf (c :: rest) then
      let run := ((c :: rest).drop 8).takeWhile (fun ch => !urlStopChar ch)
      if run = [] then searchUrl rest else some (chars "https://" ++ run)
    else searchUrl rest

/-- URL acceptance heuristic of both handlers: the matched URL must mention
the API file path or end in a recognised image extension (case-insensitive). -/
def urlCond (u : Chars) : Bool :=
  containsSub (chars "api/files") u
    || (chars ".png").isSuffixOf (lowerStr u)
    || (chars ".jpg").isSuffixOf (lowerStr u)
    || (chars ".jpeg").isSuffixOf (lowerStr u)

inductive RefKind where
  | url
  | base64
deriving DecidableEq

structure ImageRef where
  kind : RefKind
  data : JVal

/-- Refs contributed by the base64 fallback scan of a text chunk. -/
def b64ScanRefs (ch : Chars) : List ImageRef :=
  match searchB64 ch with
  | some g => [⟨RefKind.base64, JVal.jstr g⟩]
  | none => []

/-- Refs contributed by the URL fallback scan of a text chunk. -/
def urlScanRefs (ch : Chars) : List ImageRef :=
  match searchUrl ch with
  | some u => if urlCond u then [⟨RefKind.url, JVal.jstr u⟩] else []
  | none => []

/- ===================== request plumbing ===================== -/

def MODEL_MAP : List (Chars × Chars) :=
  [ (chars "1", chars "kyvex"),
    (chars "2", chars "claude-sonnet-4.5"),
    (chars "3", chars "gpt-5"),
    (chars "4", chars "gemini-2.5-pro"),
    (chars "5", chars "grok-4"),
    (chars "6", chars "gemini-imagen-4"),
    (chars "kyvex", chars "kyvex"),
    (chars "claude", chars "claude-sonnet-4.5"),
    (chars "sonnet", chars "claude-sonnet-4.5"),
    (chars "gpt5", chars "gpt-5"),
    (chars "gpt-5", chars "gpt-5"),
    (chars "gemini", chars "gemini-2.5-pro"),
    (chars "grok", chars "grok-4"),
    (chars "imagen", chars "gemini-imagen-4"),
    (chars "default", chars "kyvex") ]

def mapLookup (m : List (Chars × Chars)) (k : Chars) : Option Chars :=
  (m.find? (fun p => p.1 == k)).map (fun p => p.2)

/-- str_to_bool from src/app.py lines 52-55 applied to an optional string
parameter (absent parameters default to a falsy value). -/
def str_to_bool (v : Option Chars) : Bool :=
  match v with
  | none => false
  | some s =>
    if s = [] then false
    else
      lowerStr s == chars "true" || lowerStr s == chars "1"
        || lowerStr s == chars "on" || lowerStr s == chars "yes"

/-- Model resolution of src/app.py lines 193-194: lowercase the input, look it
up in MODEL_MAP, and fall back to the (lowercased) input itself. -/
def resolveModel (m : Chars) : Chars :=
  (mapLookup MODEL_MAP (lowerStr m)).getD (lowerStr m)

structure Params where
  prompt : Option Chars
  model : Option Chars
  web : Option Chars
  image : Option Chars
  reasoning : Option Chars
  auto : Option Chars

/-- The upstream transport as seen by one request: response status, response
text (used for the failure excerpt), the stream lines yielded, and an
exception optionally raised by the line iterator after those lines. -/
structure Upstream where
  status : Int
  text : Chars
  lines : List Chars
  readExc : Option Chars

structure MetaR where
  model : Chars
  web_search : Bool
  generated_image : Bool
  reasoning : Bool

/-- One returned JSON object; each optional field is present exactly when the
corresponding Python dict literal carries the key. -/
structure PyResult where
  success : Bool
  error_code : Option Int
  message : Option JVal
  meta : Option MetaR
  response : Option Chars
  thought : Option Chars
  images : Option (List ImageRef)

def mkFailTransport (code : Int) (body : Chars) : PyResult :=
  ⟨false, some code, some (.jstr (body.take 300)), none, none, none, none⟩

def mkFailMsg (m : JVal) : PyResult :=
  ⟨false, none, some m, none, none, none, none⟩

/- ===================== generic line loop ===================== -/

inductive StepRes (σ : Type) where
  | cont (st : σ)
  | brk (st : σ)
  | failE (m : JVal)
  | raiseE (m : Chars)

inductive RunRes (σ : Type) where
  | finished (st : σ)
  | broke (st : σ)
  | failedR (m : JVal)
  | raisedR (m : Chars)

def runLoop {σ : Type} (step : σ → Chars → StepRes σ) : List Chars → σ → RunRes σ
  | [], st => .finished st
  | l :: ls, st =>
    match step st l with
    | .cont st2 => runLoop step ls st2
    | .brk st2 => .broke st2
    | .failE m => .failedR m
    | .raiseE m => .raisedR m

/- ===================== main chat path ===================== -/

inductive Mode where
  | response
  | think
deriving DecidableEq

structure AggSt where
  response : Chars
  thought : Chars
  images : List ImageRef
  mode : Mode

def initAgg : AggSt := ⟨[], [], [], Mode.response⟩

def thinkOpen : Chars := chars "<think>"

def thinkClose : Chars := chars "</think>"

/-- Deep-thinking marker handling of src/app.py lines 264-269: the opening
marker check runs first and switches the mode to think while stripping the
marker; the closing marker check runs second on the already-stripped text and
switches the mode back to response while stripping the closing marker. -/
def handleThink (m : Mode) (c : Chars) : Mode × Chars :=
  let p1 : Mode × Chars :=
    if containsSub thinkOpen c then (Mode.think, replaceAll thinkOpen [] c) else (m, c)
  if containsSub thinkClose p1.2 then (Mode.response, replaceAll thinkClose [] p1.2) else p1

/-- Stream framing of the main loop, lines 234-236: skip blank and comment
lines, then drop an optional data: marker with surrounding whitespace. -/
def mainFrame (raw : Chars) : Option Chars :=
  let line := pyStrip raw
  if line = [] then none
  else if line.headD ' ' = ':' then none
  else if (chars "data:").isPrefixOf line then some (pyStrip (line.drop 5)) else some line

/-- Structured image extraction of the main loop, lines 258-261: imageBase64
first, then imageUrl, each appended when truthy. -/
def mainStructRefs (fs : List (Chars × JVal)) : List ImageRef :=
  (match jGet fs (chars "imageBase64") with
    | some v => if pyTruthy v then [⟨RefKind.base64, v⟩] else []
    | none => [])
  ++ (match jGet fs (chars "imageUrl") with
    | some v => if pyTruthy v then [⟨RefKind.url, v⟩] else []
    | none => [])

/-- Text payload extraction of the main loop, lines 251-255: a non-null token
takes precedence, else a string-valued content field, else empty. -/
def mainContent (fs : List (Chars × JVal)) : JVal :=
  match jGetNonNull fs (chars "token") with
  | some v => v
  | none =>
    match jGet fs (chars "content") with
    | some (.jstr s) => .jstr s
    | _ => .jstr []

def statusIsError (fs : List (Chars × JVal)) : Bool :=
  match jGet fs (chars "status") with
  | some v => jvalIsStr v (chars "error")
  | none => false

inductive MainCase where
  | skip
  | done
  | undecodable
  | errE (msg : JVal)
  | objE (content : JVal) (refs : List ImageRef)
  | strE (s : Chars)
  | otherE

/-- Classification of one raw line by the main loop body (lines 233-261):
framing, sentinel, decode with decode-failure branch, error signal, object
payload with structured refs, plain decoded string, or other decoded shape. -/
def mainClassify (raw : Chars) : MainCase :=
  match mainFrame raw with
  | none => .skip
  | some line =>
    if line = chars "[DONE]" then .done
    else
      match json_loads line with
      | none => .undecodable
      | some (.jobj fs) =>
        if statusIsError fs then
          .errE (pyOr (jGet fs (chars "message")) (.jstr (chars "Unknown upstream error")))
        else
          .objE (mainContent fs) (mainStructRefs fs)
      | some (.jstr s) => .strE s
      | some _ => .otherE

/-- One iteration of the main aggregation loop (lines 233-280) as a state
step.  A non-string token payload makes the Python marker containment test
raise; the raise is surfaced so the orchestrator's handler can catch it. -/
def stepMain (st : AggSt) (raw : Chars) : StepRes AggSt :=
  match mainClassify raw with
  | .skip => .cont st
  | .done => .brk st
  | .undecodable => .cont st
  | .otherE => .cont st
  | .errE m => .failE m
  | .strE s => .cont ⟨st.response ++ clean_token s, st.thought, st.images, st.mode⟩
  | .objE content refs =>
    match content with
    | .jstr c =>
      let mc := handleThink st.mode c
      let token := clean_token mc.2
      if mc.1 = Mode.think then
        .cont ⟨st.response, st.thought ++ token, st.images ++ refs, mc.1⟩
      else
        .cont ⟨st.response ++ token, st.thought, st.images ++ refs, mc.1⟩
    | _ => .raiseE (chars "TypeError")

/- ===================== imagen path ===================== -/

structure ImSt where
  response : Chars
  images : List ImageRef

def initIm : ImSt := ⟨[], []⟩

/-- Structured image extraction of the imagen handler, lines 127-130:
imageUrl first, then imageBase64, each appended when truthy. -/
def imagenStructRefs (fs : List (Chars × JVal)) : List ImageRef :=
  (match jGet fs (chars "imageUrl") with
    | some v => if pyTruthy v then [⟨RefKind.url, v⟩] else []
    | none => [])
  ++ (match jGet fs (chars "imageBase64") with
    | some v => if pyTruthy v then [⟨RefKind.base64, v⟩] else []
    | none => [])

inductive ImCase where
  | skip
  | done
  | event (chunk : JVal) (refs : List ImageRef)

/-- Classification of one raw line by the imagen loop body (lines 112-134):
only truly empty lines are skipped, framing is stripped, decode is attempted
only for brace or bracket prefixed text or fully quoted text, a decode
failure leaves the pre-decode text as the chunk, a token or content key is
taken by presence, and structured refs are collected inside the decode
branch. -/
def imagenClassify (raw : Chars) : ImCase :=
  if raw = [] then .skip
  else
    let c1 := pyStrip raw
    let content := if (chars "data:").isPrefixOf c1 then pyStrip (c1.drop 5) else c1
    if content = chars "[DONE]" then .done
    else
      if content.headD ' ' = lbrace || content.headD ' ' = '[' then
        match json_loads content with
        | some (.jobj fs) =>
          let refs := imagenStructRefs fs
          match jGet fs (chars "token") with
          | some v => .event v refs
          | none =>
            match jGet fs (chars "content") with
            | some v => .event v refs
            | none => .event (.jstr content) refs
        | _ => .event (.jstr content) []
      else if content.headD ' ' = '"' && content.getLastD ' ' = '"' then
        match json_loads content with
        | some (.jstr s) => .event (.jstr s) []
        | _ => .event (.jstr content) []
      else .event (.jstr content) []

/-- One iteration of the imagen loop (lines 112-145): the fallback pattern
scans run on every event chunk, unconditionally, after the structured refs;
a non-string chunk makes re.search raise. -/
def stepImagen (st : ImSt) (raw : Chars) : StepRes ImSt :=
  match imagenClassify raw with
  | .skip => .cont st
  | .done => .brk st
  | .event chunk refs =>
    match chunk with
    | .jstr ch =>
      .cont ⟨st.response ++ clean_token ch,
             st.images ++ refs ++ b64ScanRefs ch ++ urlScanRefs ch⟩
    | _ => .raiseE (chars "TypeError")

def mkSuccessImagen (st : ImSt) : PyResult :=
  ⟨true, none, none, some ⟨chars "gemini-imagen-4", false, true, false⟩,
    some (pyStrip st.response), some [], some st.images⟩

/-- process_imagen_specific from src/app.py lines 65-161 over a modelled
upstream. -/
def process_imagen_specific (_p : Params) (up : Upstream) : PyResult :=
  if up.status ≠ 200 then mkFailTransport up.status up.text
  else
    match runLoop stepImagen up.lines initIm with
    | .failedR m => mkFailMsg m
    | .raisedR m => mkFailMsg (.jstr m)
    | .broke st => mkSuccessImagen st
    | .finished st =>
      match up.readExc with
      | some e => mkFailMsg (.jstr e)
      | none => mkSuccessImagen st

/-- generate_image flag computation of lines 200-203 (the imagen special case
is dead there because the imagen model is routed away first, but it is kept
as written). -/
def mainGenFlag (p : Params) : Bool :=
  if resolveModel ((p.model).getD (chars "kyvex")) = chars "gemini-imagen-4" then true
  else str_to_bool p.image

def mkSuccessMain (selected : Chars) (web gen reas : Bool) (st : AggSt) : PyResult :=
  ⟨true, none, none, some ⟨selected, web, gen, reas⟩,
    some (pyStrip st.response), some (pyStrip st.thought), some st.images⟩

/-- process_kyvex_request from src/app.py lines 166-296 over a modelled
upstream: model resolution and imagen routing, transport failure, the
aggregation loop, the surrounding exception handler, and the final result. -/
def process_kyvex_request (p : Params) (up : Upstream) : PyResult :=
  if resolveModel ((p.model).getD (chars "kyvex")) = chars "gemini-imagen-4" then
    process_imagen_specific p up
  else if up.status ≠ 200 then mkFailTransport up.status up.text
  else
    match runLoop stepMain up.lines initAgg with
    | .failedR m => mkFailMsg m
    | .raisedR m => mkFailMsg (.jstr m)
    | .broke st =>
      mkSuccessMain (resolveModel ((p.model).getD (chars "kyvex")))
        (str_to_bool p.web) (mainGenFlag p) (str_to_bool p.reasoning) st
    | .finished st =>
      match up.readExc with
      | some e => mkFailMsg (.jstr e)
      | none =>
        mkSuccessMain (resolveModel ((p.model).getD (chars "kyvex")))
          (str_to_bool p.web) (mainGenFlag p) (str_to_bool p.reasoning) st

/- ===================== auxiliary predicates and test data ===================== -/

/-- Decoded shapes that are neither an object nor a string. -/
def notObjStr : JVal → Prop
  | .jobj _ => False
  | .jstr _ => False
  | _ => True

/-- The two legal result shapes: success with populated meta, response,
thought and images and no message, or failure with a message and none of the
success fields. -/
def shapeOk (r : PyResult) : Prop :=
  (r.success = true ∧ r.error_code = none ∧ r.message = none ∧ r.meta.isSome = true
    ∧ r.response.isSome = true ∧ r.thought.isSome = true ∧ r.images.isSome = true)
  ∨ (r.success = false ∧ r.message.isSome = true ∧ r.meta = none
    ∧ r.response = none ∧ r.thought = none ∧ r.images = none)

def lineTokHel : Chars := chars "\x7b\"token\":\"Hel\"\x7d"

def lineTokLo : Chars := chars "\x7b\"token\":\"lo\"\x7d"

def lineDone : Chars := chars "[DONE]"

def lineErr : Chars := chars "\x7b\"status\":\"error\",\"message\":\"rate limited\"\x7d"

def lineHello : Chars := chars "hello"

def lineTokUrl : Chars := chars "\x7b\"token\":\"https://x/api/files/1.png\"\x7d"

def lineImgBoth : Chars :=
  chars "\x7b\"imageUrl\":\"https://x/api/files/1.png\",\"token\":\"see https://x/api/files/1.png\"\x7d"

def lineThinkMark : Chars := chars "\x7b\"token\":\"<think>x</think>\"\x7d"

def lineOpen : Chars := chars "\x7b\"token\":\"<think>\"\x7d"

def linePlan : Chars := chars "\x7b\"token\":\"plan\"\x7d"

def lineClose : Chars := chars "\x7b\"token\":\"</think>\"\x7d"

def lineAnswer : Chars := chars "\x7b\"token\":\"answer\"\x7d"

def lineOpenAbc : Chars := chars "\x7b\"token\":\"<think>abc\"\x7d"

def pKyvex : Params := ⟨some (chars "hi"), some (chars "kyvex"), none, none, none, none⟩

def pImagen : Params := ⟨some (chars "hi"), some (chars "imagen"), none, none, none, none⟩

def upOf (ls : List Chars) : Upstream := ⟨200, [], ls, none⟩

def upOfExc (ls : List Chars) (e : Chars) : Upstream := ⟨200, [], ls, some e⟩

/- ===================== sanity checks ===================== -/

example : json_loads (chars "\x7b\"token\":\"Hel\"\x7d")
    = some (JVal.jobj [(chars "token", JVal.jstr (chars "Hel"))]) := rfl

example : json_loads (chars "hello") = none := rfl

example : json_loads (chars "\"hello\"") = some (JVal.jstr (chars "hello")) := rfl

example : clean_token (chars "a\\nb") = chars "a\nb" := rfl

example : clean_token (chars "\"hi\"") = chars "hi" := rfl

example : resolveModel (chars "claude") = chars "claude-sonnet-4.5" := rfl

/- ===================== list and marker lemmas ===================== -/

lemma containsSub_cons (pat : Chars) (c : Char) (t : Chars) :
    containsSub pat (c :: t) = (pat.isPrefixOf (c :: t) || containsSub pat t) := rfl

lemma ipo_self_app : ∀ (l r : Chars), l.isPrefixOf (l ++ r) = true := by
  intro l r
  induction l with
  | nil => simp [List.isPrefixOf]
  | cons a as ih => simp [List.isPrefixOf, ih]

lemma ipo_exists (l : Chars) : ∀ (s : Chars), l.isPrefixOf s = true → ∃ r, s = l ++ r := by
  induction l with
  | nil => intro s _; exact ⟨s, rfl⟩
  | cons a as ih =>
    intro s h
    match s with
    | [] => exact absurd h (by simp [List.isPrefixOf])
    | b :: bs =>
      simp only [List.isPrefixOf, Bool.and_eq_true] at h
      obtain ⟨hab, hrec⟩ := h
      obtain ⟨r, hr⟩ := ih bs hrec
      exact ⟨r, by simp [hr, eq_of_beq hab]⟩

lemma notPref_head (a b : Char) (as bs : Chars) (h : (a == b) = false) :
    (a :: as).isPrefixOf (b :: bs) = false := by
  simp [List.isPrefixOf, h]

lemma notPref_second (a c d : Char) (as bs : Chars) (h : (c == d) = false) :
    (a :: c :: as).isPrefixOf (a :: d :: bs) = false := by
  simp [List.isPrefixOf, h]

lemma thinkClose_eq : thinkClose = '<' :: '/' :: 't' :: 'h' :: 'i' :: 'n' :: 'k' :: '>' :: ([] : Chars) := rfl

/-- A closing marker occurrence inside an opening marker followed by anything
is impossible within the first seven characters, so containment passes
through the opening marker. -/
lemma contains_open_append (u : Chars) :
    containsSub thinkClose (thinkOpen ++ u) = containsSub thinkClose u := by
  show containsSub thinkClose ('<' :: 't' :: 'h' :: 'i' :: 'n' :: 'k' :: '>' :: u)
      = containsSub thinkClose u
  rw [containsSub_cons, containsSub_cons, containsSub_cons, containsSub_cons,
      containsSub_cons, containsSub_cons, containsSub_cons]
  rw [thinkClose_eq]
  rw [notPref_second '<' '/' 't' _ _ (by decide),
      notPref_head '<' 't' _ _ (by decide),
      notPref_head '<' 'h' _ _ (by decide),
      notPref_head '<' 'i' _ _ (by decide),
      notPref_head '<' 'n' _ _ (by decide),
      notPref_head '<' 'k' _ _ (by decide),
      notPref_head '<' '>' _ _ (by decide)]
  simp

/-- Replacement of opening markers walks through marker-free characters. -/
lemma replF_skip : ∀ (w : Chars), (∀ c ∈ w, c ≠ '<') → ∀ (f : Nat) (v : Chars),
    ∃ v2, replaceAllF thinkOpen [] f (w ++ v) = w ++ v2 := by
  intro w
  induction w with
  | nil => intro _ f v; exact ⟨replaceAllF thinkOpen [] f v, rfl⟩
  | cons c w2 ih =>
    intro hw f v
    match f with
    | 0 => exact ⟨v, rfl⟩
    | f + 1 =>
      have hc : c ≠ '<' := hw c (List.mem_cons_self c w2)
      have hnp : thinkOpen.isPrefixOf (c :: (w2 ++ v)) = false := by
        rw [show thinkOpen = '<' :: ('t' :: 'h' :: 'i' :: 'n' :: 'k' :: '>' :: ([] : Chars)) from rfl]
        exact notPref_head '<' c _ _ (beq_eq_false_iff_ne.mpr (Ne.symm hc))
      obtain ⟨v2, hv2⟩ := ih (fun x hx => hw x (List.mem_cons_of_mem c hx)) f v
      refine ⟨v2, ?_⟩
      show replaceAllF thinkOpen [] (f + 1) (c :: (w2 ++ v)) = c :: (w2 ++ v2)
      simp only [replaceAllF, hnp, Bool.false_eq_true, if_false]
      rw [hv2]

/-- Key preservation fact: removing every opening marker from a fragment
cannot destroy a closing marker occurrence, because the two markers cannot
overlap. -/
lemma replF_pres : ∀ (f : Nat) (s : Chars), containsSub thinkClose s = true →
    containsSub thinkClose (replaceAllF thinkOpen [] f s) = true := by
  intro f
  induction f with
  | zero => intro s h; simpa [replaceAllF] using h
  | succ f ih =>
    intro s h
    match s with
    | [] => exact absurd h (by decide)
    | c :: t =>
      by_cases hp : thinkOpen.isPrefixOf (c :: t) = true
      · obtain ⟨u, hu⟩ := ipo_exists thinkOpen (c :: t) hp
        have hdrop : (c :: t).drop thinkOpen.length = u := by
          rw [hu]; exact List.drop_left thinkOpen u
        have h2 : containsSub thinkClose u = true := by
          rw [hu, contains_open_append] at h; exact h
        have hstep : replaceAllF thinkOpen [] (f + 1) (c :: t)
            = replaceAllF thinkOpen [] f u := by
          simp only [replaceAllF, hp, if_true, hdrop, List.nil_append]
        rw [hstep]
        exact ih u h2
      · have hp2 : thinkOpen.isPrefixOf (c :: t) = false := by
          revert hp; cases thinkOpen.isPrefixOf (c :: t) <;> simp
        have hstep : replaceAllF thinkOpen [] (f + 1) (c :: t)
            = c :: replaceAllF thinkOpen [] f t := by
          simp only [replaceAllF, hp2, Bool.false_eq_true, if_false]
        rw [hstep, containsSub_cons]
        rw [containsSub_cons, Bool.or_eq_true] at h
        rcases h with h1 | h1
        · obtain ⟨v, hv⟩ := ipo_exists thinkClose (c :: t) h1
          rw [thinkClose_eq] at hv
          simp only [List.cons_append, List.nil_append] at hv
          injection hv with hchar htail
          subst hchar
          subst htail
          obtain ⟨v2, hv2⟩ := replF_skip ['/', 't', 'h', 'i', 'n', 'k', '>'] (by decide) f v
          rw [Bool.or_eq_true]
          left
          rw [show ('/' :: 't' :: 'h' :: 'i' :: 'n' :: 'k' :: '>' :: v : Chars)
              = ['/', 't', 'h', 'i', 'n', 'k', '>'] ++ v from rfl]
          rw [hv2]
          show thinkClose.isPrefixOf (thinkClose ++ v2) = true
          exact ipo_self_app thinkClose v2
        · rw [Bool.or_eq_true]
          exact Or.inr (ih t h1)

/-- After the marker handling of the main loop, a fragment that contained the
closing marker always leaves the mode at response, because the opening check
runs first and stripping opening markers preserves the closing marker. -/
lemma handleThink_close (m : Mode) (c : Chars) (h : containsSub thinkClose c = true) :
    (handleThink m c).1 = Mode.response := by
  unfold handleThink
  by_cases ho : containsSub thinkOpen c = true
  · have hpres : containsSub thinkClose (replaceAllF thinkOpen [] c.length c) = true :=
      replF_pres c.length c h
    simp [ho, hpres, replaceAll]
  · have ho2 : containsSub thinkOpen c = false := by
      revert ho; cases containsSub thinkOpen c <;> simp
    simp [ho2, h]

/- ===================== claim C4 ===================== -/

/-- Claim C4 (counterexample): an input with a quote only at the start does
not keep it; clean_token strips the lone leading quote. -/
theorem c4_counterexample :
    clean_token (chars "\"a") = chars "a" ∧ chars "a" ≠ chars "\"a" :=
  ⟨rfl, by decide⟩

/-- Claim C4 (amended): the token normalizer applies, in order, newline and
tab unescaping, removal of one leading quote if present, removal of one
trailing quote if present - where trailing means at the very end of the
string or immediately before a newline that ends the string, as the regex end
anchor matches both positions - each strip independent of the other, and
quote unescaping; it is total and empty input yields empty output. -/
theorem c4_theorem :
    clean_token [] = []
    ∧ (∀ t : Chars, clean_token t
        = replaceAll (chars "\\\"") (chars "\"")
            (stripTrailQuote (stripLeadQuote (replaceAll (chars "\\t") (chars "\t")
              (replaceAll (chars "\\n") (chars "\n") t)))))
    ∧ (∀ s : Chars, stripLeadQuote ('"' :: s) = s)
    ∧ (∀ t : Chars, t.headD ' ' ≠ '"' → stripLeadQuote t = t)
    ∧ (∀ t : Chars, t.getLast? = some '"' → stripTrailQuote t = t.dropLast)
    ∧ (∀ u : Chars, stripTrailQuote (u ++ ['"', '\n']) = u ++ ['\n'])
    ∧ (∀ t : Chars, t.getLast? ≠ some '"' → t.getLast? ≠ some '\n' →
        stripTrailQuote t = t) := by
  refine ⟨rfl, ?_, ?_, ?_, ?_, ?_, ?_⟩
  · intro t
    by_cases ht : t = []
    · subst ht; rfl
    · simp [clean_token, quoteSub, ht]
  · intro s; rfl
  · intro t h
    match t with
    | [] => rfl
    | c :: r =>
      have hc : c ≠ '"' := by simpa using h
      simp [stripLeadQuote, hc]
  · intro t h
    simp [stripTrailQuote, h]
  · intro u
    have hq : ('\n' : Char) ≠ '"' := by decide
    rw [show (u ++ ['"', '\n']) = (u ++ ['"']) ++ ['\n'] by simp]
    simp [stripTrailQuote, List.getLast?_concat, List.dropLast_concat, hq]
  · intro t h1 h2
    match hl : t.getLast? with
    | none => simp [stripTrailQuote, hl]
    | some c =>
      have hc1 : c ≠ '"' := fun hcq => h1 (by rw [hl, hcq])
      have hc2 : c ≠ '\n' := fun hcn => h2 (by rw [hl, hcn])
      simp [stripTrailQuote, hl, hc1, hc2]

/-- Claim C4 (witness): the amended theorem evaluated at concrete inputs,
including the end-anchor-before-final-newline case. -/
theorem c4_witness :
    (chars "a\"b").headD ' ' ≠ '"'
    ∧ stripLeadQuote (chars "a\"b") = chars "a\"b"
    ∧ (chars "ab\"").getLast? = some '"'
    ∧ stripTrailQuote (chars "ab\"") = (chars "ab\"").dropLast
    ∧ stripTrailQuote (chars "ab" ++ ['"', '\n']) = chars "ab" ++ ['\n']
    ∧ clean_token (chars "a\"\n") = chars "a\n"
    ∧ clean_token (chars "a\\nb")
        = replaceAll (chars "\\\"") (chars "\"")
            (stripTrailQuote (stripLeadQuote (replaceAll (chars "\\t") (chars "\t")
              (replaceAll (chars "\\n") (chars "\n") (chars "a\\nb"))))) :=
  ⟨by decide, c4_theorem.2.2.2.1 (chars "a\"b") (by decide), rfl,
    c4_theorem.2.2.2.2.1 (chars "ab\"") rfl,
    c4_theorem.2.2.2.2.2.1 (chars "ab"), rfl, c4_theorem.2.1 (chars "a\\nb")⟩

/- ===================== claim C5 ===================== -/

/-- Claim C5 (counterexample): a mixed-case unresolved input does not stay
exactly as given; the code lowercases it before the lookup and the lowercased
form is what passes through. -/
theorem c5_counterexample :
    resolveModel (chars "Foo") = chars "foo" ∧ chars "foo" ≠ chars "Foo" :=
  ⟨rfl, by decide⟩

/-- Claim C5 (amended): model resolution is case-insensitive (inputs equal
after lowercasing resolve identically), and an input whose lowercased form is
not in the alias table passes through as its lowercased form. -/
theorem c5_theorem :
    (∀ m1 m2 : Chars, lowerStr m1 = lowerStr m2 → resolveModel m1 = resolveModel m2)
    ∧ (∀ m : Chars, mapLookup MODEL_MAP (lowerStr m) = none → resolveModel m = lowerStr m)
    ∧ resolveModel (chars "foo") = chars "foo" := by
  refine ⟨?_, ?_, rfl⟩
  · intro m1 m2 h
    unfold resolveModel
    rw [h]
  · intro m h
    unfold resolveModel
    rw [h]
    rfl

/-- Claim C5 (witness): the amended theorem evaluated at concrete inputs. -/
theorem c5_witness :
    lowerStr (chars "FOO") = lowerStr (chars "foo")
    ∧ resolveModel (chars "FOO") = resolveModel (chars "foo")
    ∧ mapLookup MODEL_MAP (lowerStr (chars "foo")) = none
    ∧ resolveModel (chars "foo") = lowerStr (chars "foo") :=
  ⟨rfl, c5_theorem.1 (chars "FOO") (chars "foo") rfl, rfl,
    c5_theorem.2.1 (chars "foo") rfl⟩

/- ===================== claim C7 ===================== -/

/-- Claim C7: the stream of the two token lines followed by the sentinel
yields a success whose trimmed visible text is Hello, empty reasoning text
and no images; and the sentinel stops the read, so an exception pending
after it never surfaces. -/
theorem c7_theorem :
    ((process_kyvex_request pKyvex (upOf [lineTokHel, lineTokLo, lineDone])).success = true
      ∧ (process_kyvex_request pKyvex (upOf [lineTokHel, lineTokLo, lineDone])).response
          = some (chars "Hello")
      ∧ (process_kyvex_request pKyvex (upOf [lineTokHel, lineTokLo, lineDone])).thought = some []
      ∧ (process_kyvex_request pKyvex (upOf [lineTokHel, lineTokLo, lineDone])).images = some [])
    ∧ (process_kyvex_request pKyvex
        (upOfExc [lineTokHel, lineTokLo, lineDone] (chars "boom"))).success = true :=
  ⟨⟨rfl, rfl, rfl, rfl⟩, rfl⟩

/- ===================== claim C9 ===================== -/

/-- Claim C9: on the main path, any fragment containing the closing marker
leaves the mode at Visible (response), even when an opening marker appears
after the closing one, because the opening check of handleThink runs first
and stripping opening markers cannot destroy the closing marker. -/
theorem c9_theorem : ∀ (m : Mode) (c : Chars),
    containsSub thinkClose c = true → (handleThink m c).1 = Mode.response :=
  handleThink_close

/-- Claim C9 (witness): the fragment with the closing marker before an
opening marker ends in response mode from either starting mode. -/
theorem c9_witness :
    containsSub thinkClose (chars "</think>x<think>") = true
    ∧ (handleThink Mode.response (chars "</think>x<think>")).1 = Mode.response
    ∧ (handleThink Mode.think (chars "</think>x<think>")).1 = Mode.response :=
  ⟨by decide, c9_theorem Mode.response (chars "</think>x<think>") (by decide),
    c9_theorem Mode.think (chars "</think>x<think>") (by decide)⟩

/- ===================== claim C1 ===================== -/

/-- Claim C1 (counterexample): on the main aggregation path a line whose
decode fails is dropped, not appended; the stream made of the single plain
line hello yields an empty visible text although normalization would have
preserved the text. -/
theorem c1_counterexample :
    (process_kyvex_request pKyvex (upOf [lineHello])).success = true
    ∧ (process_kyvex_request pKyvex (upOf [lineHello])).response = some []
    ∧ clean_token (chars "hello") = chars "hello"
    ∧ chars "hello" ≠ ([] : Chars) :=
  ⟨rfl, rfl, rfl, by decide⟩

/-- Claim C1 (amended): on the main aggregation path, a framed line whose
structured decode fails, or whose decoded shape is neither an object nor a
string, leaves the aggregation state unchanged - the line is skipped, not
captured as a raw fallback token. -/
theorem c1_theorem : ∀ (st : AggSt) (raw line : Chars),
    mainFrame raw = some line →
    line ≠ chars "[DONE]" →
    (json_loads line = none ∨ ∃ v, json_loads line = some v ∧ notObjStr v) →
    stepMain st raw = StepRes.cont st := by
  intro st raw line hf hnd h
  rcases h with h | ⟨v, hv, hshape⟩
  · have hcl : mainClassify raw = MainCase.undecodable := by
      unfold mainClassify
      simp only [hf]
      rw [if_neg hnd, h]
    simp [stepMain, hcl]
  · have hcl : mainClassify raw = MainCase.otherE := by
      unfold mainClassify
      simp only [hf]
      rw [if_neg hnd, hv]
      cases v with
      | jobj fs => simp [notObjStr] at hshape
      | jstr s => simp [notObjStr] at hshape
      | jnull => rfl
      | jbool b => rfl
      | jnum n => rfl
      | jarr xs => rfl
    simp [stepMain, hcl]

/-- Claim C1 (witness): the amended theorem at the undecodable line hello and
at a line decoding to a bare number. -/
theorem c1_witness :
    mainFrame lineHello = some (chars "hello")
    ∧ json_loads (chars "hello") = none
    ∧ stepMain initAgg lineHello = StepRes.cont initAgg
    ∧ json_loads (chars "5") = some (JVal.jnum 5)
    ∧ stepMain initAgg (chars "5") = StepRes.cont initAgg :=
  ⟨rfl, rfl, c1_theorem initAgg lineHello (chars "hello") rfl (by decide) (Or.inl rfl),
    rfl, c1_theorem initAgg (chars "5") (chars "5") rfl (by decide)
      (Or.inr ⟨JVal.jnum 5, rfl, trivial⟩)⟩

/- ===================== claim C2 ===================== -/

/-- Claim C2 (counterexample): on the default chat path no fallback pattern
scan runs; an event whose token holds a qualifying API file URL contributes
no image ref, although the URL scan, had it run, would have matched. -/
theorem c2_counterexample :
    (process_kyvex_request pKyvex (upOf [lineTokUrl])).images = some []
    ∧ urlScanRefs (chars "https://x/api/files/1.png")
        = [⟨RefKind.url, JVal.jstr (chars "https://x/api/files/1.png")⟩] :=
  ⟨rfl, rfl⟩

/-- Claim C2 (amended): the two fallback pattern scans run unconditionally on
every imagen-path event with a string chunk, even when structured fields
already matched; on the default chat path no pattern scan runs and the image
list grows exactly by the structured refs of the event. -/
theorem c2_theorem :
    (∀ (st : ImSt) (raw ch : Chars) (refs : List ImageRef),
        imagenClassify raw = ImCase.event (JVal.jstr ch) refs →
        stepImagen st raw = StepRes.cont
          ⟨st.response ++ clean_token ch,
           st.images ++ refs ++ b64ScanRefs ch ++ urlScanRefs ch⟩)
    ∧ (∀ (st : AggSt) (raw : Chars) (content : JVal) (refs : List ImageRef),
        mainClassify raw = MainCase.objE content refs →
        (∃ st2, stepMain st raw = StepRes.cont st2 ∧ st2.images = st.images ++ refs)
          ∨ stepMain st raw = StepRes.raiseE (chars "TypeError")) := by
  constructor
  · intro st raw ch refs h
    simp [stepImagen, h]
  · intro st raw content refs h
    cases content with
    | jstr c =>
      left
      by_cases hm : (handleThink st.mode c).1 = Mode.think
      · exact ⟨⟨st.response, st.thought ++ clean_token (handleThink st.mode c).2,
          st.images ++ refs, (handleThink st.mode c).1⟩, by simp [stepMain, h, hm], rfl⟩
      · exact ⟨⟨st.response ++ clean_token (handleThink st.mode c).2, st.thought,
          st.images ++ refs, (handleThink st.mode c).1⟩, by simp [stepMain, h, hm], rfl⟩
    | jnull => right; simp [stepMain, h]
    | jbool b => right; simp [stepMain, h]
    | jnum n => right; simp [stepMain, h]
    | jarr xs => right; simp [stepMain, h]
    | jobj fs => right; simp [stepMain, h]

/-- Claim C2 (witness): an imagen event whose structured imageUrl already
matched still gets the URL fallback scan ref for the same URL in its token
text, so the duplicate is appended. -/
theorem c2_witness :
    imagenClassify lineImgBoth
      = ImCase.event (JVal.jstr (chars "see https://x/api/files/1.png"))
          [⟨RefKind.url, JVal.jstr (chars "https://x/api/files/1.png")⟩]
    ∧ urlScanRefs (chars "see https://x/api/files/1.png")
        = [⟨RefKind.url, JVal.jstr (chars "https://x/api/files/1.png")⟩]
    ∧ stepImagen initIm lineImgBoth = StepRes.cont
        ⟨[] ++ clean_token (chars "see https://x/api/files/1.png"),
         [] ++ [⟨RefKind.url, JVal.jstr (chars "https://x/api/files/1.png")⟩]
           ++ b64ScanRefs (chars "see https://x/api/files/1.png")
           ++ urlScanRefs (chars "see https://x/api/files/1.png")⟩ :=
  ⟨rfl, rfl, c2_theorem.1 initIm lineImgBoth (chars "see https://x/api/files/1.png")
    [⟨RefKind.url, JVal.jstr (chars "https://x/api/files/1.png")⟩] rfl⟩

/- ===================== claim C3 ===================== -/

/-- The main loop fails as soon as it reaches a line classified as an
upstream error, regardless of the state accumulated over the prefix. -/
lemma runMain_pre : ∀ (pre : List Chars) (st : AggSt) (raw : Chars) (rest : List Chars)
    (msg : JVal),
    (∀ l ∈ pre, ∀ s : AggSt, ∃ s2, stepMain s l = StepRes.cont s2) →
    mainClassify raw = MainCase.errE msg →
    runLoop stepMain (pre ++ raw :: rest) st = RunRes.failedR msg := by
  intro pre
  induction pre with
  | nil =>
    intro st raw rest msg _ herr
    have hstep : stepMain st raw = StepRes.failE msg := by simp [stepMain, herr]
    simp [runLoop, hstep]
  | cons l pre2 ih =>
    intro st raw rest msg hpre herr
    obtain ⟨s2, hs2⟩ := hpre l (List.mem_cons_self l pre2) st
    have hrw : runLoop stepMain ((l :: pre2) ++ raw :: rest) st
        = runLoop stepMain (pre2 ++ raw :: rest) s2 := by
      simp [runLoop, hs2]
    rw [hrw]
    exact ih s2 raw rest msg (fun x hx => hpre x (List.mem_cons_of_mem l hx)) herr

/-- Claim C3 (amended): on the default chat path a structured error event
mid-stream makes the aggregator return the failure record carrying that
event's message, with all accumulated text and images discarded; the
image-generation variant has no error handling and instead appends the error
line's text to its visible response. -/
theorem c3_theorem :
    (∀ (p : Params) (up : Upstream) (pre rest : List Chars) (raw : Chars) (msg : JVal),
        resolveModel ((p.model).getD (chars "kyvex")) ≠ chars "gemini-imagen-4" →
        up.status = 200 →
        up.lines = pre ++ raw :: rest →
        (∀ l ∈ pre, ∀ s : AggSt, ∃ s2, stepMain s l = StepRes.cont s2) →
        mainClassify raw = MainCase.errE msg →
        process_kyvex_request p up = mkFailMsg msg)
    ∧ (∀ st : ImSt, stepImagen st lineErr
        = StepRes.cont ⟨st.response ++ clean_token lineErr, st.images⟩) := by
  constructor
  · intro p up pre rest raw msg hmod hst hlines hpre herr
    unfold process_kyvex_request
    rw [if_neg hmod]
    rw [if_neg (show ¬(up.status ≠ 200) by simp [hst])]
    rw [hlines, runMain_pre pre initAgg raw rest msg hpre herr]
  · intro st
    have hcl : imagenClassify lineErr = ImCase.event (JVal.jstr lineErr) [] := rfl
    have hb : b64ScanRefs lineErr = [] := rfl
    have hu : urlScanRefs lineErr = [] := rfl
    simp [stepImagen, hcl, hb, hu]

/-- Claim C3 (witness): the error stream on the default path fails with the
carried message even with a token line accumulated before it. -/
theorem c3_witness :
    mainClassify lineErr = MainCase.errE (JVal.jstr (chars "rate limited"))
    ∧ process_kyvex_request pKyvex (upOf [lineErr])
        = mkFailMsg (JVal.jstr (chars "rate limited")) :=
  ⟨rfl, c3_theorem.1 pKyvex (upOf [lineErr]) [] [] lineErr (JVal.jstr (chars "rate limited"))
    (by decide) rfl rfl (by simp) rfl⟩

/-- Claim C3 (counterexample): on the image-generation variant the same error
event does not terminate with a failure; the request succeeds and no message
is carried. -/
theorem c3_counterexample :
    (process_kyvex_request pImagen (upOf [lineErr])).success = true
    ∧ (process_kyvex_request pImagen (upOf [lineErr])).message = none :=
  ⟨rfl, rfl⟩

/- ===================== claim C6 ===================== -/

/-- Claim C6: an opening marker switches the mode to Reasoning before the
stripped fragment is appended (it lands in the thought channel), a closing
marker reverts the mode to Visible with the stripped fragment landing in the
response channel, and the four-fragment scenario yields reasoning text plan
and visible text answer. -/
theorem c6_theorem :
    (∀ (st : AggSt) (raw c : Chars) (refs : List ImageRef),
        mainClassify raw = MainCase.objE (JVal.jstr c) refs →
        containsSub thinkOpen c = true →
        containsSub thinkClose (replaceAll thinkOpen [] c) = false →
        stepMain st raw = StepRes.cont
          ⟨st.response, st.thought ++ clean_token (replaceAll thinkOpen [] c),
           st.images ++ refs, Mode.think⟩)
    ∧ (∀ (st : AggSt) (raw c : Chars) (refs : List ImageRef),
        mainClassify raw = MainCase.objE (JVal.jstr c) refs →
        containsSub thinkClose c = true →
        stepMain st raw = StepRes.cont
          ⟨st.response ++ clean_token (handleThink st.mode c).2, st.thought,
           st.images ++ refs, Mode.response⟩)
    ∧ ((process_kyvex_request pKyvex (upOf [lineOpen, linePlan, lineClose, lineAnswer])).response
          = some (chars "answer")
        ∧ (process_kyvex_request pKyvex (upOf [lineOpen, linePlan, lineClose, lineAnswer])).thought
          = some (chars "plan")) := by
  refine ⟨?_, ?_, rfl, rfl⟩
  · intro st raw c refs h ho hcf
    have hh : handleThink st.mode c = (Mode.think, replaceAll thinkOpen [] c) := by
      unfold handleThink
      simp [ho, hcf]
    simp [stepMain, h, hh]
  · intro st raw c refs h hc
    have h1 : (handleThink st.mode c).1 = Mode.response := handleThink_close st.mode c hc
    have hne : ¬((handleThink st.mode c).1 = Mode.think) := by rw [h1]; simp
    simp [stepMain, h, h1, hne]

/-- Claim C6 (witness): the general parts evaluated on concrete marker
fragments. -/
theorem c6_witness :
    mainClassify lineOpenAbc = MainCase.objE (JVal.jstr (chars "<think>abc")) []
    ∧ containsSub thinkOpen (chars "<think>abc") = true
    ∧ containsSub thinkClose (replaceAll thinkOpen [] (chars "<think>abc")) = false
    ∧ stepMain initAgg lineOpenAbc = StepRes.cont
        ⟨[], [] ++ clean_token (replaceAll thinkOpen [] (chars "<think>abc")),
         [] ++ [], Mode.think⟩
    ∧ mainClassify lineThinkMark = MainCase.objE (JVal.jstr (chars "<think>x</think>")) []
    ∧ containsSub thinkClose (chars "<think>x</think>") = true
    ∧ stepMain initAgg lineThinkMark = StepRes.cont
        ⟨[] ++ clean_token (handleThink Mode.response (chars "<think>x</think>")).2, [],
         [] ++ [], Mode.response⟩ :=
  ⟨rfl, by decide, by decide,
    c6_theorem.1 initAgg lineOpenAbc (chars "<think>abc") [] rfl (by decide) (by decide),
    rfl, by decide,
    c6_theorem.2.1 initAgg lineThinkMark (chars "<think>x</think>") [] rfl (by decide)⟩

/- ===================== claim C10 ===================== -/

/-- Claim C10: the image-generation variant gives think markers no special
handling - its thought field is the empty string on every success, and a
marker-bearing token is appended verbatim (token normalization leaves it
unchanged) to the visible response. -/
theorem c10_theorem :
    (∀ (p : Params) (up : Upstream),
        (process_imagen_specific p up).success = true →
        (process_imagen_specific p up).thought = some [])
    ∧ (∀ st : ImSt, stepImagen st lineThinkMark
        = StepRes.cont ⟨st.response ++ chars "<think>x</think>", st.images⟩)
    ∧ clean_token (chars "<think>x</think>") = chars "<think>x</think>" := by
  refine ⟨?_, ?_, rfl⟩
  · intro p up h
    unfold process_imagen_specific at h ⊢
    by_cases hs : up.status ≠ 200
    · rw [if_pos hs] at h
      simp [mkFailTransport] at h
    · rw [if_neg hs] at h ⊢
      cases hr : runLoop stepImagen up.lines initIm with
      | failedR m => simp only [hr] at h; simp [mkFailMsg] at h
      | raisedR m => simp only [hr] at h; simp [mkFailMsg] at h
      | broke st => simp only [hr]; rfl
      | finished st =>
        simp only [hr] at h ⊢
        cases he : up.readExc with
        | some e => simp only [he] at h; simp [mkFailMsg] at h
        | none => simp only [he]; rfl
  · intro st
    have hcl : imagenClassify lineThinkMark
        = ImCase.event (JVal.jstr (chars "<think>x</think>")) [] := rfl
    have hb : b64ScanRefs (chars "<think>x</think>") = [] := rfl
    have hu : urlScanRefs (chars "<think>x</think>") = [] := rfl
    have hct : clean_token (chars "<think>x</think>") = chars "<think>x</think>" := rfl
    simp [stepImagen, hcl, hb, hu, hct]

/-- Claim C10 (witness): a successful imagen run has an empty thought field. -/
theorem c10_witness :
    (process_imagen_specific pImagen (upOf [])).success = true
    ∧ (process_imagen_specific pImagen (upOf [])).thought = some [] :=
  ⟨rfl, c10_theorem.1 pImagen (upOf []) rfl⟩

/- ===================== claim C8 ===================== -/

lemma shapeOk_fail_transport (c : Int) (b : Chars) : shapeOk (mkFailTransport c b) := by
  simp [shapeOk, mkFailTransport]

lemma shapeOk_fail_msg (m : JVal) : shapeOk (mkFailMsg m) := by
  simp [shapeOk, mkFailMsg]

lemma shapeOk_succ_imagen (st : ImSt) : shapeOk (mkSuccessImagen st) := by
  simp [shapeOk, mkSuccessImagen]

lemma shapeOk_succ_main (sel : Chars) (w g r : Bool) (st : AggSt) :
    shapeOk (mkSuccessMain sel w g r st) := by
  simp [shapeOk, mkSuccessMain]

lemma shapeOk_imagen (p : Params) (up : Upstream) :
    shapeOk (process_imagen_specific p up) := by
  unfold process_imagen_specific
  split
  · exact shapeOk_fail_transport _ _
  · split
    · exact shapeOk_fail_msg _
    · exact shapeOk_fail_msg _
    · exact shapeOk_succ_imagen _
    · split
      · exact shapeOk_fail_msg _
      · exact shapeOk_succ_imagen _

/-- Claim C8: every request, over every modelled upstream behaviour
(transport failure, mid-read exceptions, raising loop bodies), produces
exactly one of the two result shapes - success with populated text and image
fields and no message, or failure with a message and none of the success
fields - and no exception escapes. -/
theorem c8_theorem (p : Params) (up : Upstream) :
    shapeOk (process_kyvex_request p up) := by
  unfold process_kyvex_request
  split
  · exact shapeOk_imagen p up
  · split
    · exact shapeOk_fail_transport _ _
    · split
      · exact shapeOk_fail_msg _
      · exact shapeOk_fail_msg _
      · exact shapeOk_succ_main _ _ _ _ _
      · split
        · exact shapeOk_fail_msg _
        · exact shapeOk_succ_main _ _ _ _ _
